import Mathlib

/-!
Formal model of the skill_sense matching engine
(`apps/backend/app/services/skill_service.py`,
`apps/backend/app/services/job_matching_service.py`,
`apps/backend/app/skills/taxonomy.py`).

Modelling conventions:
* Python `str` values are `List Char` (`Str`); `str.lower()` is mapped
  `Char.toLower`, which agrees with Python on the ASCII range used by all
  of the engine's tables.
* Python `dict`s are insertion-ordered association lists; Python `set`s
  are insertion-ordered duplicate-free lists.
* Python floats are modelled as exact rationals `ℚ`; `round(x, 2)` is
  round-half-to-even on the exact value.
* `list.sort` / `sorted` are modelled by `List.insertionSort`, which has
  the same stability guarantee as Python's sort (for `reverse=True` the
  relation is flipped, keeping ties in original order, as CPython does).
-/

/-- Characters of a Python string. -/
abbrev Str := List Char

/-- Embed a Lean string literal into the model representation. -/
def S (s : String) : Str := s.data

/-- Python `str.lower()` (ASCII range). -/
def lowerS (s : Str) : Str := s.map Char.toLower

/-- Python `needle in haystack` substring test. -/
def containsGo (needle : Str) : Str → Bool
  | [] => needle.isPrefixOf []
  | c :: cs => needle.isPrefixOf (c :: cs) || containsGo needle cs

def containsS (haystack needle : Str) : Bool := containsGo needle haystack

/-- Characters removed by Python `str.strip()`. -/
def pyIsSpace (c : Char) : Bool :=
  c == ' ' || c == '\t' || c == '\n' || c == '\r' || c == '\x0b' || c == '\x0c'

/-- Python `str.strip()`. -/
def pyStrip (s : Str) : Str :=
  ((s.dropWhile pyIsSpace).reverse.dropWhile pyIsSpace).reverse

/-- Python `str.isalpha()` restricted to the ASCII range. -/
def pyIsAlpha (c : Char) : Bool := c.isAlpha

/-- Character class of `SkillMatcher.TOKEN_PATTERN`, the regex
`[a-z0-9\+\#\.]+` (always applied to lowercased text). -/
def isTokenChar (c : Char) : Bool :=
  c.isLower || c.isDigit || c == '+' || c == '#' || c == '.'

/-- One token produced by `TOKEN_PATTERN.finditer`: the matched characters
together with its start/end character offsets. -/
structure Tok where
  str : Str
  start : Nat
  stop : Nat
deriving DecidableEq

/-- Scanner for `TOKEN_PATTERN.finditer`: walks the characters keeping the
current partial run (start offset and reversed characters). -/
def tokenizeGo : List Char → Nat → Option (Nat × Str) → List Tok → List Tok
  | [], _, none, acc => acc.reverse
  | [], pos, some (st, run), acc =>
      (({ str := run.reverse, start := st, stop := pos } : Tok) :: acc).reverse
  | c :: cs, pos, none, acc =>
      if isTokenChar c then tokenizeGo cs (pos + 1) (some (pos, [c])) acc
      else tokenizeGo cs (pos + 1) none acc
  | c :: cs, pos, some (st, run), acc =>
      if isTokenChar c then tokenizeGo cs (pos + 1) (some (st, c :: run)) acc
      else tokenizeGo cs (pos + 1) none
        (({ str := run.reverse, start := st, stop := pos } : Tok) :: acc)

/-- Model of `TOKEN_PATTERN.finditer(s)`: maximal runs of token characters with offsets. -/
def tokenizeWithOffsets (s : Str) : List Tok := tokenizeGo s 0 none []

/-- Model of `TOKEN_PATTERN.findall(s)`. -/
def findTokens (s : Str) : List Str := (tokenizeWithOffsets s).map (·.str)

/-- Model of Python `set.add` on an insertion-ordered set. -/
def addIfAbsent [BEq α] (l : List α) (x : α) : List α :=
  if l.contains x then l else l ++ [x]

/-- Python `str.replace(c, repl)` for a single-character needle (all the
separator replacements in the source use single-character needles). -/
def replaceChar (c : Char) (repl : Str) : Str → Str
  | [] => []
  | x :: xs => (if x == c then repl else [x]) ++ replaceChar c repl xs

/-- Python `" ".join(tokens)`. -/
def joinSpace : List Str → Str
  | [] => []
  | [t] => t
  | t :: ts => t ++ ' ' :: joinSpace ts

/-- The separator replacement table of `_generate_token_variants`. -/
def separatorReplacements : List (Char × Str) :=
  [('/', S " "), ('-', S " "), ('_', S " "), ('&', S " and "), ('+', S " plus ")]

/-- The string-level variant set built by `_generate_token_variants` before
tokenization (the lowercased phrase, cumulative separator replacements, and
dot-stripped forms). -/
def genVariantStrings (phrase : Str) : List Str :=
  let lower := lowerS phrase
  let variants := separatorReplacements.foldl (fun vs p =>
      let updated := (vs.filter (fun v => v.contains p.1)).map (replaceChar p.1 p.2)
      updated.foldl addIfAbsent vs) [lower]
  variants.foldl (fun acc v =>
      let acc := addIfAbsent acc v
      if v.contains '.' then addIfAbsent acc (replaceChar '.' (S " ") v) else acc) []

/-- Model of `SkillMatcher._generate_token_variants`. -/
def generateTokenVariants (phrase : Str) : List (List Str) :=
  if phrase.isEmpty then []
  else (genVariantStrings phrase).foldl (fun acc v =>
      let toks := findTokens v
      if toks.isEmpty then acc else addIfAbsent acc toks) []

/-- Model of `SkillMatcher.SHORT_TOKEN_WHITELIST`. -/
def shortTokenWhitelist : List Str :=
  [S "sql", S "aws", S "git", S "css", S "html", S "ux", S "ui", S "qa",
   S "bi", S "sap", S "sas", S "etl", S "crm"]

/-- Model of `SkillMatcher.GENERIC_SINGLE_TOKENS`. -/
def genericSingleTokens : List Str :=
  [S "excel", S "word", S "office", S "drive", S "access", S "outlook", S "teams"]

/-- One row of `SkillMatcher.STRICT_CONTEXT_TERMS`. -/
structure StrictCfg where
  keywords : List Str
  allowList : Bool
deriving DecidableEq

/-- Model of `SkillMatcher.STRICT_CONTEXT_TERMS`. -/
def strictContextTerms : List (Str × StrictCfg) :=
  [(S "excel", ⟨[S "microsoft", S "ms office", S "spreadsheet"], true⟩),
   (S "word", ⟨[S "microsoft", S "ms office", S "document"], true⟩),
   (S "office", ⟨[S "microsoft", S "ms office", S "suite"], true⟩),
   (S "drive", ⟨[S "google", S "g suite", S "workspace"], true⟩),
   (S "access", ⟨[S "microsoft", S "database"], true⟩),
   (S "outlook", ⟨[S "microsoft", S "ms"], true⟩),
   (S "teams", ⟨[S "microsoft", S "ms"], true⟩),
   (S "google", ⟨[S "search", S "engine", S "seo", S "ads", S "results", S "query"], false⟩),
   (S "yahoo", ⟨[S "search", S "engine", S "seo"], false⟩),
   (S "logic", ⟨[S "formal logic", S "logical", S "boolean", S "symbolic", S "circuit", S "predicate"], false⟩),
   (S "report", ⟨[S "facts", S "write", S "writing", S "prepare", S "draft", S "document", S "statement"], false⟩),
   (S "source", ⟨[S "game", S "engine", S "valve", S "hammer", S "sdk"], false⟩)]

/-- Model of `SkillMatcher.GENERAL_CONTEXT_KEYWORDS`. -/
def generalContextKeywords : List Str :=
  [S "experience", S "experiences", S "skill", S "skills", S "skilled",
   S "proficient", S "proficiency", S "knowledge", S "familiar", S "familiarity",
   S "using", S "use", S "utilized", S "utilised", S "expertise", S "certified",
   S "tools", S "technologies", S "technology", S "framework", S "frameworks",
   S "stack", S "worked", S "hands-on", S "hands on", S "background", S "projects",
   S "responsible for", S "competency", S "competencies"]

/-- Model of `SkillMatcher.LIST_SYMBOLS`. -/
def listSymbols : List Char := ['•', '·', '-', '*']

/-- Model of `SkillMatcher._should_require_context`. -/
def shouldRequireContext (tokens : List Str) : Bool :=
  if tokens.length > 1 then false
  else
    let token := tokens.headD []
    if shortTokenWhitelist.contains token then false
    else if token.length ≤ 2 then true
    else if strictContextTerms.any (fun p => p.1 == token) then true
    else genericSingleTokens.contains token

/-- Model of `SkillEntry` (frozen dataclass). -/
structure SkillEntry where
  canonicalName : Str
  aliasPhrase : Str
  normalized : Str
  tokens : List Str
  escoId : Option Str
  category : Str
  skillType : Option Str
  requiresContext : Bool
deriving DecidableEq

/-- One record of `taxonomy_map.json` as consumed by `_build_index`
(`mapping.get(...)` fields are optional). -/
structure Mapping where
  skillName : Str
  aliases : List Str := []
  escoId : Option Str := none
  category : Option Str := none
  skillType : Option Str := none
deriving DecidableEq

/-- Python `d.get(k)` on an insertion-ordered dict. -/
def alistFind [BEq κ] (l : List (κ × β)) (k : κ) : Option β :=
  (l.find? (fun p => p.1 == k)).map (·.2)

/-- Python `d.setdefault(k, v)` (only inserts when the key is absent). -/
def alistSetdefault [BEq κ] (l : List (κ × β)) (k : κ) (v : β) : List (κ × β) :=
  if (l.find? (fun p => p.1 == k)).isSome then l else l ++ [(k, v)]

/-- Python `d[k] = v` on an insertion-ordered dict (overwrite in place,
append new keys at the end). -/
def alistInsert [BEq κ] (l : List (κ × β)) (k : κ) (v : β) : List (κ × β) :=
  if (l.find? (fun p => p.1 == k)).isSome
  then l.map (fun p => if p.1 == k then (k, v) else p)
  else l ++ [(k, v)]

/-- Model of `defaultdict(list)` append: `index[k].append(e)`. -/
def indexAdd (l : List (Str × List SkillEntry)) (k : Str) (e : SkillEntry) :
    List (Str × List SkillEntry) :=
  if (l.find? (fun p => p.1 == k)).isSome
  then l.map (fun p => if p.1 == k then (p.1, p.2 ++ [e]) else p)
  else l ++ [(k, [e])]

/-- The cache produced by `SkillMatcher._build_index`. -/
structure SkillIndex where
  index : List (Str × List SkillEntry)
  lookup : List (Str × SkillEntry)
  maxTokens : Nat

/-- Mutable state of the `_build_index` loops. -/
structure BuildSt where
  unique : List ((Str × Str) × SkillEntry)
  lookup : List (Str × SkillEntry)
  index : List (Str × List SkillEntry)
  maxTokens : Nat

/-- The body of the innermost `_build_index` loop, for one token variant of
one alias phrase. -/
def buildStep (mp : Mapping) (phrase : Str) (st : BuildSt) (tokens : List Str) : BuildSt :=
  let normalized := joinSpace tokens
  if normalized.isEmpty then st
  else
    let key := (lowerS mp.skillName, normalized)
    let found := alistFind st.unique key
    let entry := match found with
      | some e => e
      | none =>
        { canonicalName := mp.skillName, aliasPhrase := phrase, normalized := normalized,
          tokens := tokens, escoId := mp.escoId,
          category := mp.category.getD (S "technical"), skillType := mp.skillType,
          requiresContext := shouldRequireContext tokens }
    let st := match found with
      | some _ => st
      | none =>
        { st with unique := st.unique ++ [(key, entry)],
                  maxTokens := max st.maxTokens tokens.length }
    { st with lookup := alistSetdefault st.lookup normalized entry,
              index := indexAdd st.index (tokens.headD []) entry }

/-- Model of `SkillMatcher._build_index` over the mapping records supplied by the
taxonomy mapper. -/
def buildIndexFromMappings (mappings : List Mapping) : SkillIndex :=
  let st := mappings.foldl (fun st mp =>
      if mp.skillName.isEmpty then st
      else (mp.skillName :: mp.aliases).foldl (fun st phrase =>
          (generateTokenVariants phrase).foldl (buildStep mp phrase) st) st)
    ({ unique := [], lookup := [], index := [], maxTokens := 0 })
  { index := st.index, lookup := st.lookup, maxTokens := st.maxTokens }

/-- A `SkillMatcher` instance: the shared index plus the lowercased
exclusion set. -/
structure SkillMatcher where
  idx : SkillIndex
  excluded : List Str

/-- Model of `SkillMatcher.__init__` over a mapping list and an exclusion set. -/
def mkSkillMatcher (mappings : List Mapping) (excluded : List Str) : SkillMatcher :=
  { idx := buildIndexFromMappings mappings,
    excluded := (excluded.map lowerS).foldl addIfAbsent [] }

/-- Word characters for the regex `\b` boundary (`[a-zA-Z0-9_]`). -/
def isWordChar (c : Char) : Bool := c.isAlpha || c.isDigit || c == '_'

/-- The literal alternatives of the regex
`\b(skills?|tools?|technologies?|stack):` used by `_is_list_context`
(`technologies?` makes only the final letter s optional). -/
def listHeaderAlternatives : List Str :=
  [S "skills:", S "skill:", S "tools:", S "tool:",
   S "technologies:", S "technologie:", S "stack:"]

/-- Model of `re.search` for a set of literal alternatives each preceded by a `\b`
word boundary (every alternative starts with a word character). -/
def boundarySearchGo (cands : List Str) : Option Char → Str → Bool
  | _, [] => false
  | prev, c :: cs =>
      ((match prev with
        | none => true
        | some pc => !isWordChar pc) && cands.any (fun p => p.isPrefixOf (c :: cs)))
      || boundarySearchGo cands (some c) cs

/-- Model of `re.search(r"\b(skills?|tools?|technologies?|stack):", snippet_lower)`. -/
def listHeaderSearch (s : Str) : Bool := boundarySearchGo listHeaderAlternatives none s

/-- Model of `SkillMatcher._is_list_context`. -/
def isListContext (snippet snippetLower : Str) : Bool :=
  let stripped := pyStrip snippet
  if (match stripped.head? with
      | some c => listSymbols.contains c
      | none => false) then true
  else if listSymbols.any (fun sym => snippet.contains sym) then true
  else listHeaderSearch snippetLower

/-- Model of `SkillMatcher._has_positive_context`. -/
def hasPositiveContext (snippet snippetLower : Str) : Bool :=
  generalContextKeywords.any (fun k => containsS snippetLower k)
  || isListContext snippet snippetLower

/-- Tail of the compiled pattern `NEGATIVE_CONTEXT_PATTERNS["excel"]` after
the optional group.  The source compiles the raw string
`r"\\bexcel(?:led|s|ing)?\\s+(?:at|in)\\b"`, in which each doubled
backslash is an escaped literal backslash, so the compiled regex demands a
literal backslash before `b`, a literal backslash followed by one or more
letters `s` in place of the intended whitespace class, and a final literal
backslash before `b`. -/
def negTailAfterGroup (cs : Str) : Bool :=
  match cs with
  | '\\' :: rest =>
      let sRun := rest.takeWhile (fun c => c == 's')
      let rest2 := rest.dropWhile (fun c => c == 's')
      sRun.length ≥ 1 &&
        (((S "at").isPrefixOf rest2 && (S "\\b").isPrefixOf (rest2.drop 2))
          || ((S "in").isPrefixOf rest2 && (S "\\b").isPrefixOf (rest2.drop 2)))
  | _ => false

/-- Match of the compiled negative-context pattern at one position. -/
def negMatchAt (cs : Str) : Bool :=
  (S "\\bexcel").isPrefixOf cs &&
    (let rest := cs.drop 7
     [S "led", S "s", S "ing", S ""].any
       (fun g => g.isPrefixOf rest && negTailAfterGroup (rest.drop g.length)))

/-- Model of `NEGATIVE_CONTEXT_PATTERNS["excel"].search(snippet_lower)` as a Bool. -/
def negSearch : Str → Bool
  | [] => negMatchAt []
  | c :: cs => negMatchAt (c :: cs) || negSearch cs

/-- Lookup and search of `NEGATIVE_CONTEXT_PATTERNS` for one token. -/
def negativePatternSearch (token : Str) (snippetLower : Str) : Bool :=
  if token == S "excel" then negSearch snippetLower else false

/-- Model of `SkillMatcher.context_is_valid`. -/
def contextIsValid (entry : SkillEntry) (snippet : Str) : Bool :=
  let snippetLower := lowerS snippet
  if entry.requiresContext then
    let token := entry.tokens.headD []
    match alistFind strictContextTerms token with
    | some cfg =>
        let hasKeyword := cfg.keywords.any (fun k => containsS snippetLower k)
        if !hasKeyword && !cfg.allowList then false
        else if !hasKeyword && !isListContext snippet snippetLower then false
        else if negativePatternSearch token snippetLower then false
        else true
    | none => hasPositiveContext snippet snippetLower
  else true

/-- Model of `SkillMatch` (frozen dataclass). -/
structure SkillMatch where
  entry : SkillEntry
  start : Nat
  stop : Nat
  matchedText : Str
  snippet : Str
deriving DecidableEq

/-- Model of `SkillMatcher._spans_overlap`. -/
def spansOverlap (first second : SkillMatch) : Bool :=
  !(decide (first.stop ≤ second.start) || decide (first.start ≥ second.stop))

/-- Model of `SkillMatcher._extract_context` (radius 60). -/
def extractContext (text : Str) (start stop : Nat) : Str :=
  (text.take (stop + 60)).drop (start - 60)

/-- Python slice `text[start:stop]`. -/
def pySlice (text : Str) (start stop : Nat) : Str := (text.take stop).drop start

/-- State of the raw-match scan: collected matches and the seen span keys. -/
structure ScanSt where
  raw : List SkillMatch
  seen : List (Str × Nat × Nat)

/-- Body of the candidate loop of `SkillMatcher.match` at one token
position. -/
def scanToken (m : SkillMatcher) (text : Str) (toks : List Tok) (st : ScanSt)
    (pos : Nat) (tok : Tok) : ScanSt :=
  match alistFind m.idx.index tok.str with
  | none => st
  | some candidates =>
    candidates.foldl (fun st entry =>
      let len := entry.tokens.length
      if pos + len > toks.length then st
      else
        let window := (toks.drop pos).take len
        let candidateTokens := window.map (·.str)
        let normalizedCandidate := joinSpace candidateTokens
        if normalizedCandidate ≠ entry.normalized then st
        else
          match window.head?, window.getLast? with
          | some w0, some wl =>
            let start := w0.start
            let stop := wl.stop
            let canonicalLower := lowerS entry.canonicalName
            if m.excluded.contains canonicalLower
               || m.excluded.contains entry.normalized then st
            else
              let spanKey := (canonicalLower, start, stop)
              if st.seen.contains spanKey then st
              else
                let snippet := extractContext text start stop
                if !contextIsValid entry snippet then st
                else
                  let nm : SkillMatch :=
                    { entry := entry, start := start, stop := stop,
                      matchedText := pySlice text start stop, snippet := snippet }
                  { raw := st.raw ++ [nm], seen := st.seen ++ [spanKey] }
          | _, _ => st) st

/-- The raw (pre-overlap-resolution) matches collected by
`SkillMatcher.match`. -/
def rawMatchesOf (m : SkillMatcher) (text : Str) : List SkillMatch :=
  let textLower := lowerS text
  let toks := tokenizeWithOffsets textLower
  (toks.enum.foldl (fun st p => scanToken m text toks st p.1 p.2)
    { raw := [], seen := [] }).raw

/-- The sort key `(len(m.entry.tokens), m.end - m.start)` with
`reverse=True`: `rawRel a b` holds when `a` may come before `b` in the
descending stable sort. -/
def rawRel (a b : SkillMatch) : Prop :=
  b.entry.tokens.length < a.entry.tokens.length
  ∨ (a.entry.tokens.length = b.entry.tokens.length ∧ b.stop - b.start ≤ a.stop - a.start)

instance : DecidableRel rawRel := fun a b => by unfold rawRel; infer_instance

/-- The presentation sort key `m.start` (ascending, stable). -/
def startRel (a b : SkillMatch) : Prop := a.start ≤ b.start

instance : DecidableRel startRel := fun a b => by unfold startRel; infer_instance

/-- The greedy overlap-resolution walk of `SkillMatcher.match`. -/
def greedyGo (acc : List SkillMatch) : List SkillMatch → List SkillMatch
  | [] => acc
  | m :: rest =>
      if acc.any (fun existing => spansOverlap m existing) then greedyGo acc rest
      else greedyGo (acc ++ [m]) rest

/-- Overlap resolution over the sorted raw matches. -/
def overlapFilter (l : List SkillMatch) : List SkillMatch := greedyGo [] l

/-- Model of `SkillMatcher.match`. -/
def skillMatch (m : SkillMatcher) (text : Str) : List SkillMatch :=
  if text.isEmpty then []
  else
    let toks := tokenizeWithOffsets (lowerS text)
    if toks.isEmpty then []
    else
      let raw := rawMatchesOf m text
      if raw.isEmpty then []
      else List.insertionSort startRel (overlapFilter (List.insertionSort rawRel raw))

/-- Model of `SkillMatcher.resolve_phrase`. -/
def resolvePhrase (m : SkillMatcher) (phrase : Str) : Option SkillEntry :=
  if phrase.isEmpty then none
  else (generateTokenVariants phrase).findSome? (fun tokens =>
    match alistFind m.idx.lookup (joinSpace tokens) with
    | some entry =>
        if m.excluded.contains (lowerS entry.canonicalName) then none else some entry
    | none => none)

/-- Round-half-to-even on an exact rational (Python `round` on the exact
value of the float expression; arithmetic is modelled exactly over `ℚ`). -/
def roundHalfEven (q : ℚ) : ℤ :=
  let f := q.num / (q.den : ℤ)
  let r := q - (f : ℚ)
  if r < 1/2 then f
  else if r > 1/2 then f + 1
  else if f % 2 = 0 then f else f + 1

/-- Python `round(q, 2)` on the exact value. -/
def round2 (q : ℚ) : ℚ := (roundHalfEven (q * 100) : ℚ) / 100

/-- Model of `EvidenceItem` (pydantic model; `score` is a required float, `source`
and `snippet` are required strings). -/
structure EvidenceItem where
  source : Str
  snippet : Str
  score : ℚ
  offset : Option Nat := none
  href : Option Str := none
deriving DecidableEq

/-- Python `max` over a list (of at least one element; 0 on the empty
list, which is unreachable at the call site). -/
def listMax : List ℚ → ℚ
  | [] => 0
  | x :: xs => xs.foldl max x

/-- Model of `SkillExtractionService._calculate_confidence`.  The comprehension
`[e.score for e in evidence if e.score is not None]` never filters anything
because `EvidenceItem.score` is a required pydantic float, so it is the
plain list of scores here. -/
def calcConfidence (evidence : List EvidenceItem) : ℚ :=
  if evidence.isEmpty then 0
  else
    let freqScore := min 1 ((2/5 : ℚ) + ((evidence.length : ℚ) - 1) * (1/5))
    let qualityScores := evidence.map (·.score)
    if qualityScores.isEmpty then 0
    else
      let maxQuality := listMax qualityScores
      let avgQuality := qualityScores.sum / (qualityScores.length : ℚ)
      let combinedQuality := (13/20 : ℚ) * maxQuality + (7/20 : ℚ) * avgQuality
      let sourcesSet := ((evidence.filter (fun e => !e.source.isEmpty)).map (·.source)).foldl addIfAbsent []
      let diversityScore := if sourcesSet.isEmpty then 0 else min 1 ((sourcesSet.length : ℚ) / 3)
      let confidence := (1/5 : ℚ) * freqScore + (7/10 : ℚ) * combinedQuality
        + (1/10 : ℚ) * diversityScore
      round2 (min 1 (max 0 confidence))

/-- Generic `re.search`: try a match predicate at every suffix. -/
def searchAt (p : Str → Bool) : Str → Bool
  | [] => p []
  | c :: cs => p (c :: cs) || searchAt p cs

/-- The regex whitespace class `\s` (ASCII range). -/
def isRegexSpace (c : Char) : Bool :=
  c == ' ' || c == '\t' || c == '\n' || c == '\r' || c == '\x0b' || c == '\x0c'

/-- Match of `\d+\+?\s*years?` at one position (a match exists at the
position iff maximal-munch succeeds, since the sub-patterns cannot steal
from each other here; the trailing `s?` never affects existence). -/
def year1At (cs : Str) : Bool :=
  match cs with
  | c :: rest =>
      if c.isDigit then
        let rest := rest.dropWhile Char.isDigit
        let rest := match rest with | '+' :: r => r | r => r
        let rest := rest.dropWhile isRegexSpace
        (S "year").isPrefixOf rest
      else false
  | [] => false

/-- Match of `years?\s+of\s+experience` at one position. -/
def year2At (cs : Str) : Bool :=
  if (S "year").isPrefixOf cs then
    let rest := cs.drop 4
    let rest := match rest with | 's' :: r => r | r => r
    let ws1 := rest.takeWhile isRegexSpace
    let rest1 := rest.dropWhile isRegexSpace
    ws1.length ≥ 1 && (S "of").isPrefixOf rest1 &&
      (let rest2 := rest1.drop 2
       let ws2 := rest2.takeWhile isRegexSpace
       let rest3 := rest2.dropWhile isRegexSpace
       ws2.length ≥ 1 && (S "experience").isPrefixOf rest3)
  else false

/-- Match of `\d+\+?\s*yrs?` at one position. -/
def year3At (cs : Str) : Bool :=
  match cs with
  | c :: rest =>
      if c.isDigit then
        let rest := rest.dropWhile Char.isDigit
        let rest := match rest with | '+' :: r => r | r => r
        let rest := rest.dropWhile isRegexSpace
        (S "yr").isPrefixOf rest
      else false
  | [] => false

/-- The `year_patterns` loop of `_score_evidence`: true iff some pattern
matches somewhere in the snippet. -/
def yearPatternHit (snippetLower : Str) : Bool :=
  searchAt year1At snippetLower || searchAt year2At snippetLower
  || searchAt year3At snippetLower

/-- Model of `strong_contexts` of `_score_evidence`. -/
def strongContexts : List Str :=
  [S "experience with", S "experience in", S "proficient in", S "expert in", S "skilled in",
   S "worked with", S "developed using", S "built with", S "implemented", S "implementing",
   S "specialized in", S "knowledge of", S "familiar with", S "strong knowledge",
   S "hands-on experience", S "extensive experience", S "programming languages:",
   S "technologies:", S "skills:", S "technical skills:"]

/-- Model of `achievement_words` of `_score_evidence`. -/
def achievementWords : List Str :=
  [S "project", S "developed", S "built", S "created", S "designed",
   S "architected", S "implemented", S "delivered", S "launched"]

/-- The list-style punctuation indicators of `_score_evidence`. -/
def evidenceListIndicators : List Str := [S "•", S "·", S ";", S " - ", S ", "]

/-- Model of `weak_contexts` of `_score_evidence`. -/
def weakContexts : List Str := [S "including", S "such as", S "like", S "etc"]

/-- Model of `SkillExtractionService._score_evidence`. -/
def scoreEvidence (snippet : Str) (skillName : Str) (source : Str)
    (skillEntry : Option SkillEntry) : ℚ :=
  let snippetLower := lowerS snippet
  let targetLower := lowerS skillName
  let score : ℚ := if source == S "structured" then 17/20 else 9/20
  let score := if source == S "resume" && hasPositiveContext snippet snippetLower
    then score + 1/5 else score
  let score := if yearPatternHit snippetLower && containsS snippetLower targetLower
    then score + 1/5 else score
  let score := if strongContexts.any (fun c => containsS snippetLower c)
    then score + 1/5 else score
  let score := if achievementWords.any (fun w => containsS snippetLower w)
    then score + 3/25 else score
  let score := if evidenceListIndicators.any (fun ind => containsS snippet ind)
    then score + 1/10 else score
  let score := if weakContexts.any (fun c => containsS snippetLower c)
    then score - 1/20 else score
  let score := if (match skillEntry with | some e => e.requiresContext | none => false)
      && source == S "resume"
    then score + 1/20 else score
  min 1 (max 0 score)

/-- Python `a or b` for optional strings (an empty string is falsy). -/
def pyOrStr (a : Option Str) (b : Str) : Str :=
  match a with
  | some s => if s.isEmpty then b else s
  | none => b

/-- Python `a or b` where both are optional strings. -/
def pyOrOpt (a b : Option Str) : Option Str :=
  match a with
  | some s => if s.isEmpty then b else a
  | none => b

/-- The TLD alternatives of the URL guard regex
`[a-z0-9-]+\.(com|io|org|net|dev|app)`. -/
def domainTlds : List Str := [S "com", S "io", S "org", S "net", S "dev", S "app"]

/-- The character class `[a-z0-9-]` (searched on the lowercased context,
modelling `re.IGNORECASE`). -/
def isDomainNameChar (c : Char) : Bool := c.isLower || c.isDigit || c == '-'

/-- Match of the URL guard regex at one position: a class character,
a literal dot, then one of the TLD alternatives. -/
def domainAt (cs : Str) : Bool :=
  match cs with
  | a :: '.' :: rest => isDomainNameChar a && domainTlds.any (fun t => t.isPrefixOf rest)
  | _ => false

/-- Model of `re.search(r'[a-z0-9-]+\.(com|io|org|net|dev|app)', context, re.IGNORECASE)`. -/
def domainSearch (cs : Str) : Bool := searchAt domainAt cs

/-- The local-part character class `[a-z0-9._%+-]` of the email guard. -/
def emailLocalChar (c : Char) : Bool :=
  c.isLower || c.isDigit || c == '.' || c == '_' || c == '%' || c == '+' || c == '-'

/-- The domain character class `[a-z0-9.-]` of the email guard. -/
def emailDomainChar (c : Char) : Bool :=
  c.isLower || c.isDigit || c == '.' || c == '-'

/-- After the `@`: scan the domain-class run looking for a dot (preceded by
at least one domain character) followed by two lowercase letters, i.e. the
tail `[a-z0-9.-]+\.[a-z]{2,}` with backtracking over the dot choice. -/
def emailDomainGo : Nat → Str → Bool
  | _, [] => false
  | consumed, c :: cs =>
      (c == '.' && consumed ≥ 1 &&
        (match cs with
         | a :: b :: _ => a.isLower && b.isLower
         | _ => false))
      || (emailDomainChar c && emailDomainGo (consumed + 1) cs)

/-- Model of `re.search(r'[a-z0-9._%+-]+@[a-z0-9.-]+\.[a-z]{2,}', context, re.IGNORECASE)`:
look for an `@` preceded by a local-class character with a matching domain
tail. -/
def emailSearchGo : Str → Bool
  | [] => false
  | [_] => false
  | a :: '@' :: rest =>
      (emailLocalChar a && emailDomainGo 0 rest) || emailSearchGo ('@' :: rest)
  | _ :: b :: rest => emailSearchGo (b :: rest)

/-- The email guard of `_validate_skill_match` on the lowercased context. -/
def emailSearch (cs : Str) : Bool := emailSearchGo cs

/-- Model of `SkillExtractionService._validate_skill_match`.  Offsets are naturals
(the callers pass token offsets, which are never negative, so the
`start < 0` branch of the source is vacuous here). -/
def validateSkillMatch (text : Str) (start stop : Nat) (skillName : Str)
    (skillEntry : Option SkillEntry := none) (matchedText : Option Str := none) : Bool :=
  if skillName.isEmpty then false
  else if stop > text.length then false
  else
    let context := pySlice text (start - 24) (min text.length (stop + 24))
    if domainSearch (lowerS context) then false
    else if emailSearch (lowerS context) then false
    else
      let target := pyStrip (pyOrStr matchedText skillName)
      if target.isEmpty then false
      else if target.length ≤ 3 then
        if start > 0 && pyIsAlpha (text.getD (start - 1) ' ') then false
        else if stop < text.length && pyIsAlpha (text.getD stop ' ') then false
        else true
      else true

/-- The service exclusion set `SkillExtractionService.excluded_skills`. -/
def excludedSkills : List Str := [S "r", S "code"]

/-- Model of `SkillExtractionService.minimum_confidence`. -/
def minimumConfidence : ℚ := 11/20

/-- One value of the `skills_dict` accumulator of `_extract_skills`. -/
structure SkillData where
  name : Str
  evidence : List EvidenceItem
  matchedTerms : List Str
  category : Option Str
deriving DecidableEq

/-- Model of `SkillExtractionService._add_or_update_skill`. -/
def addOrUpdateSkill (skillsDict : List (Str × SkillData)) (skillName : Str)
    (fullText : Str) (start stop : Nat) (source : Str)
    (skillEntry : Option SkillEntry := none) (matchedText : Option Str := none)
    (snippetOverride : Option Str := none) (validate : Bool := true) :
    List (Str × SkillData) :=
  let canonicalName := pyStrip (match skillEntry with
    | some e => e.canonicalName
    | none => skillName)
  if canonicalName.isEmpty then skillsDict
  else
    let skillKey := lowerS canonicalName
    if excludedSkills.contains skillKey then skillsDict
    else
      let targetText := pyStrip (pyOrStr matchedText canonicalName)
      if validate && !validateSkillMatch fullText start stop targetText skillEntry matchedText
      then skillsDict
      else
        let snippet := match snippetOverride with
          | some s => s
          | none => pyStrip (pySlice fullText (start - 60) (min fullText.length (stop + 60)))
        let snippet := if snippet.isEmpty then targetText else snippet
        if (match skillEntry with
            | some e => source == S "resume" && !contextIsValid e snippet
            | none => false) then skillsDict
        else
          let score := scoreEvidence snippet canonicalName source skillEntry
          let evidence : EvidenceItem :=
            { source := source, snippet := snippet, score := score,
              offset := if validate then some start else none }
          let entry : SkillData := match alistFind skillsDict skillKey with
            | some e => e
            | none =>
              { name := canonicalName, evidence := [], matchedTerms := [],
                category := skillEntry.map (·.category) }
          let entry := if (entry.evidence.map (·.snippet)).contains snippet then entry
            else { entry with evidence := entry.evidence ++ [evidence] }
          let entry := { entry with matchedTerms := addIfAbsent entry.matchedTerms targetText }
          let entry := if skillEntry.isSome &&
              (match entry.category with | none => true | some c => c.isEmpty)
            then { entry with category := skillEntry.map (·.category) }
            else entry
          alistInsert skillsDict skillKey entry

/-- The nested `processed_data["skills"]` value consumed by
`_iter_skill_strings` (a string, list, or dict of arbitrary depth). -/
inductive SkillsData where
  | str (s : Str)
  | list (items : List SkillsData)
  | dict (items : List (Str × SkillsData))

/-- Python truthiness of such a value. -/
def sdFalsy : SkillsData → Bool
  | .str s => s.isEmpty
  | .list items => items.isEmpty
  | .dict items => items.isEmpty

/-- Model of `SkillExtractionService.structured_label_stopwords`. -/
def structuredLabelStopwords : List Str :=
  [S "skills", S "technical skills", S "programming skills", S "soft skills",
   S "programming languages", S "languages", S "professional skills", S "tools",
   S "tooling", S "frameworks", S "competencies", S "certifications", S "summary",
   S "professional summary", S "profile", S "experience", S "work experience",
   S "projects"]

mutual

/-- The recursive collection phase of `_iter_skill_strings` (strings are
stripped and label stopwords dropped; dict traversal visits values). -/
def iterSkillStringsGo : SkillsData → List Str
  | .str s =>
      let value := pyStrip s
      if !value.isEmpty && !structuredLabelStopwords.contains (lowerS value)
      then [value] else []
  | .list items => iterSkillStringsList items
  | .dict items => iterSkillStringsDict items

def iterSkillStringsList : List SkillsData → List Str
  | [] => []
  | x :: xs => iterSkillStringsGo x ++ iterSkillStringsList xs

def iterSkillStringsDict : List (Str × SkillsData) → List Str
  | [] => []
  | kv :: xs => iterSkillStringsGo kv.2 ++ iterSkillStringsDict xs

end

/-- Model of `SkillExtractionService._iter_skill_strings` (collection followed by
order-preserving deduplication). -/
def iterSkillStrings (data : Option SkillsData) : List Str :=
  match data with
  | none => []
  | some d =>
      if sdFalsy d then []
      else (iterSkillStringsGo d).foldl addIfAbsent []

/-- Model of `TaxonomyMapper._taxonomy_map`: case-insensitive name and alias keys,
later records overwriting earlier ones key by key. -/
def buildTaxonomyMap (mappings : List Mapping) : List (Str × Mapping) :=
  mappings.foldl (fun tm mp =>
    let tm := alistInsert tm (lowerS mp.skillName) mp
    mp.aliases.foldl (fun tm al =>
      if al.isEmpty then tm else alistInsert tm (lowerS al) mp) tm) []

/-- Model of `TaxonomyMapper.get_mapping`. -/
def getMapping (tm : List (Str × Mapping)) (skillName : Str) : Option Mapping :=
  alistFind tm (lowerS skillName)

/-- Model of `TaxonomyMapper.get_all_mappings`: the distinct mapping records in
first-key-insertion order.  (The source deduplicates by object identity;
records with identical content collapse here, which only removes duplicate
index appends that the matcher deduplicates anyway via `seen_spans`.) -/
def getAllMappings (tm : List (Str × Mapping)) : List Mapping :=
  (tm.map (·.2)).foldl addIfAbsent []

/-- Model of `TaxonomyMapper.get_category`. -/
def getCategory (tm : List (Str × Mapping)) (skillName : Str) : Str :=
  match getMapping tm skillName with
  | some mp => mp.category.getD (S "technical")
  | none => S "technical"

/-- Python `a or b` for optional mapping records (a present record is a
non-empty dict, hence truthy). -/
def pyOrMapping (a b : Option Mapping) : Option Mapping :=
  match a with
  | some m => some m
  | none => b

/-- Model of `SkillItem` (pydantic model).  `category` is a required `str`
in the pydantic model; it is optional here because `_extract_skills`
computes `mapping.get("category")`, which is `None` for a taxonomy record
without a category, and handing that `None` to the constructor raises a
`ValidationError` in the source.  The model carries that raw value
instead, so source runs that raise appear here as lists containing a
`none` category: theorems asserting concrete program outputs use taxonomy
records that carry a category (where model and source agree exactly), and
invariants over this model cover a superset of the source's runs. -/
structure SkillItem where
  skillId : Option Str := none
  name : Str
  category : Option Str
  confidence : ℚ
  evidence : List EvidenceItem := []
  mappedTaxonomyId : Option Str := none
  manualStatus : Str := S "suggested"
  editedName : Option Str := none
  tags : List Str := []
deriving DecidableEq

/-- Lexicographic (code-point) comparison of Python strings. -/
def strLT : Str → Str → Bool
  | [], [] => false
  | [], _ :: _ => true
  | _ :: _, [] => false
  | a :: as1, b :: bs1 => if a = b then strLT as1 bs1 else decide (a < b)

/-- The relation used to model Python `sorted` on strings. -/
def tagRel (a b : Str) : Prop := strLT b a = false

instance : DecidableRel tagRel := fun a b => by unfold tagRel; infer_instance

/-- The descending stable sort key `x.confidence` with `reverse=True`. -/
def confRel (a b : SkillItem) : Prop := b.confidence ≤ a.confidence

instance : DecidableRel confRel := fun a b => by unfold confRel; infer_instance

/-- The body of the conversion loop at the end of `_extract_skills`:
thresholding, taxonomy re-resolution and `SkillItem` construction.
`skill_id` is a fresh `uuid4` in the source and is modelled as `none`.
When the found mapping has no category the built item carries `none`
where the source's `SkillItem(category=None, ...)` raises a pydantic
`ValidationError` and `_extract_skills` returns no list at all (see the
note on `SkillItem`); concrete-output theorems below therefore only use
taxonomy records carrying a category. -/
def extractItemStep (tm : List (Str × Mapping)) (acc : List SkillItem)
    (kv : Str × SkillData) : List SkillItem :=
  let confidence := calcConfidence kv.2.evidence
  if confidence < minimumConfidence then acc
  else
    let mapping := pyOrMapping (getMapping tm kv.2.name) (getMapping tm kv.1)
    let mappedId := mapping.bind (·.escoId)
    let category := match mapping with
      | some mp => mp.category
      | none => pyOrOpt kv.2.category (some (S "technical"))
    let canonicalName := match mapping with
      | some mp => mp.skillName
      | none => kv.2.name
    let tags := List.insertionSort tagRel kv.2.matchedTerms
    acc ++ [{ skillId := none, name := canonicalName, category := category,
              confidence := confidence, evidence := kv.2.evidence,
              mappedTaxonomyId := mappedId, manualStatus := S "suggested",
              tags := tags }]

/-- The conversion loop at the end of `_extract_skills` followed by the
stable sort by descending confidence. -/
def extractSkillsList (tm : List (Str × Mapping))
    (skillsDict : List (Str × SkillData)) : List SkillItem :=
  List.insertionSort confRel (skillsDict.foldl (extractItemStep tm) [])

/-- Model of `SkillExtractionService._extract_skills` over the resume text and the
(optional) structured `skills` subtree. -/
def extractSkills (tm : List (Str × Mapping)) (matcher : SkillMatcher)
    (resumeText : Str) (processedSkills : Option SkillsData) : List SkillItem :=
  let sd := (skillMatch matcher resumeText).foldl (fun sd mt =>
      addOrUpdateSkill sd mt.entry.canonicalName resumeText mt.start mt.stop (S "resume")
        (some mt.entry) (some mt.matchedText) (some mt.snippet) true) []
  let sd := (iterSkillStrings processedSkills).foldl (fun sd skill =>
      match resolvePhrase matcher skill with
      | none => sd
      | some entry =>
          addOrUpdateSkill sd entry.canonicalName resumeText 0 0 (S "structured")
            (some entry) (some skill) (some skill) false) sd
  extractSkillsList tm sd

/-- A language record of the extractor result consumed by
`_extract_github_skills`. -/
structure GithubLang where
  language : Str
  proficiency : Str := S "Intermediate"
  percentage : ℚ := 0
deriving DecidableEq

/-- A project-highlight record of the extractor result. -/
structure GithubProject where
  name : Str
  language : Option Str := none
  stars : Nat := 0
  url : Option Str := none
deriving DecidableEq

/-- The extractor result `extract_skills_from_github(...)` consumed by
`_extract_github_skills`. -/
structure GithubExtracted where
  programmingLanguages : List GithubLang := []
  technologies : List Str := []
  projectHighlights : List GithubProject := []
  githubUrl : Option Str := none
deriving DecidableEq

/-- One of the plain evidence dicts built inside `_extract_github_skills`
(keys `source`, `text`, `href` only — in particular no `score` key). -/
structure GithubEvidence where
  source : Str
  text : Str
  href : Option Str
deriving DecidableEq

/-- The evidence text for a language record.  The source formats
`f"GitHub: {percentage:.1f}% of code, {proficiency} proficiency"`; the
float formatting is not modelled because the string is never observable:
the conversion below always fails before using it. -/
def ghLangEvidenceText (lang : GithubLang) : Str :=
  S "GitHub code share, " ++ lang.proficiency ++ S " proficiency"

/-- The evidence text for a project record (`f"Project: {name} ({n} stars)"`,
star-count formatting elided for the same reason). -/
def ghProjectEvidenceText (project : GithubProject) : Str :=
  S "Project: " ++ project.name

/-- One value of the `skills_dict` accumulator of `_extract_github_skills`. -/
structure GithubSkillData where
  name : Str
  evidence : List GithubEvidence
  category : Str
deriving DecidableEq

/-- Insert one github evidence record into the accumulator. -/
def ghAdd (d : List (Str × GithubSkillData)) (name : Str) (ev : GithubEvidence) :
    List (Str × GithubSkillData) :=
  let key := lowerS name
  match alistFind d key with
  | none => alistInsert d key { name := name, evidence := [ev], category := S "technical" }
  | some sd => alistInsert d key { sd with evidence := sd.evidence ++ [ev] }

/-- The accumulator phase of `_extract_github_skills`: languages, then
technologies, then the first five project highlights with a truthy
language. -/
def githubSkillsDict (ex : GithubExtracted) : List (Str × GithubSkillData) :=
  let d := ex.programmingLanguages.foldl (fun d lang =>
    ghAdd d lang.language
      { source := S "github", text := ghLangEvidenceText lang, href := ex.githubUrl }) []
  let d := ex.technologies.foldl (fun d tech =>
    ghAdd d tech
      { source := S "github", text := S "Used in GitHub projects", href := ex.githubUrl }) d
  (ex.projectHighlights.take 5).foldl (fun d project =>
    match project.language with
    | some lang =>
        if lang.isEmpty then d
        else ghAdd d lang
          { source := S "github", text := ghProjectEvidenceText project, href := project.url }
    | none => d) d

/-- Model of `_calculate_confidence` as reached from `_extract_github_skills`: the
evidence items there are the plain dicts above, so the attribute access
`e.score` raises `AttributeError` whenever the list is non-empty; the
empty list returns 0.0 before that access. -/
def githubCalcConfidence (evidence : List GithubEvidence) : Except Unit ℚ :=
  if evidence.isEmpty then .ok 0 else .error ()

/-- Model of `SkillExtractionService._extract_github_skills`.  `Except.error`
models the `AttributeError` escaping the method (it is caught by the
caller `create_skill_profile`).  The `.ok` branch of the conversion is
reached only with an empty evidence list, hence the empty `evidence`
field. -/
def extractGithubSkills (tm : List (Str × Mapping)) (gd : Option GithubExtracted) :
    Except Unit (List SkillItem) :=
  match gd with
  | none => .ok []
  | some ex =>
      (githubSkillsDict ex).foldlM (fun acc kv =>
        match githubCalcConfidence kv.2.evidence with
        | .error e => .error e
        | .ok confidence =>
            let mapping := pyOrMapping (getMapping tm kv.2.name) (getMapping tm kv.1)
            let mappedId := mapping.bind (·.escoId)
            let category := match mapping with
              | some mp => mp.category
              | none => some kv.2.category
            let canonicalName := match mapping with
              | some mp => mp.skillName
              | none => kv.2.name
            .ok (acc ++ [{ skillId := none, name := canonicalName, category := category,
                           confidence := confidence, evidence := [],
                           mappedTaxonomyId := mappedId, manualStatus := S "suggested",
                           tags := [] }])) []

/-- Python `list(set(a + b))` for tag union (set order is unspecified in
CPython; modelled as first-occurrence order). -/
def setListUnion (a b : List Str) : List Str := (a ++ b).foldl addIfAbsent []

/-- Model of `SkillExtractionService._merge_skills`. -/
def mergeSkills (resumeSkills githubSkills : List SkillItem) : List SkillItem :=
  let d := resumeSkills.foldl (fun d skill => alistInsert d (lowerS skill.name) skill) []
  let d := githubSkills.foldl (fun d ghSkill =>
    let key := lowerS ghSkill.name
    match alistFind d key with
    | some ex =>
        alistInsert d key
          { skillId := ex.skillId, name := ex.name, category := ex.category,
            confidence := max ex.confidence ghSkill.confidence,
            evidence := ex.evidence ++ ghSkill.evidence,
            mappedTaxonomyId := pyOrOpt ex.mappedTaxonomyId ghSkill.mappedTaxonomyId,
            manualStatus := ex.manualStatus, editedName := none,
            tags := setListUnion ex.tags ghSkill.tags }
    | none => alistInsert d key ghSkill) d
  d.map (·.2)

/-- The matcher used by `SkillExtractionService` (built over
`get_all_mappings()` with the service exclusion set). -/
def serviceMatcher (mappings : List Mapping) : SkillMatcher :=
  mkSkillMatcher (getAllMappings (buildTaxonomyMap mappings)) excludedSkills

/-- The skill-list computation of `create_skill_profile`: resume/structured
extraction, then — when github data is present — the github extraction
guarded by `try/except` (an `AttributeError` there is caught and the
github skills are dropped), then the cross-source merge. -/
def createProfileSkills (mappings : List Mapping) (resumeText : Str)
    (processedSkills : Option SkillsData)
    (githubData : Option (Option GithubExtracted)) : List SkillItem :=
  let tm := buildTaxonomyMap mappings
  let matcher := serviceMatcher mappings
  let skills := extractSkills tm matcher resumeText processedSkills
  match githubData with
  | none => skills
  | some gd =>
      match extractGithubSkills tm gd with
      | .error _ => skills
      | .ok githubSkills => mergeSkills skills githubSkills

/-- ASCII apostrophe, used in the f-string messages of
`update_skill_action`. -/
def quoteChar : Char := Char.ofNat 39

/-- Model of `f"...'{name}'..."` quoting helper. -/
def quoted (s : Str) : Str := quoteChar :: (s ++ [quoteChar])

/-- Model of `f"Skill '{skill_name}' not found in profile"` message. -/
def notFoundMessage (name : Str) : Str :=
  S "Skill " ++ quoted name ++ S " not found in profile"

/-- Model of `f"Skill '{skill_name}' accepted"` message. -/
def acceptedMessage (name : Str) : Str := S "Skill " ++ quoted name ++ S " accepted"

/-- Model of `f"Skill '{skill_name}' rejected"` message. -/
def rejectedMessage (name : Str) : Str := S "Skill " ++ quoted name ++ S " rejected"

/-- Model of `f"Skill '{skill_name}' edited"` message. -/
def editedMessage (name : Str) : Str := S "Skill " ++ quoted name ++ S " edited"

/-- Model of `f"Invalid action: {action}"` message. -/
def invalidActionMessage (action : Str) : Str := S "Invalid action: " ++ action

/-- A stored `SkillProfile` row (its JSON skill dicts round-trip through
`SkillItem`). -/
structure ProfileRec where
  profileId : Str
  resumeId : Str
  skills : List SkillItem
deriving DecidableEq

/-- A `SkillAuditLog` row. -/
structure AuditRec where
  profileId : Str
  skillName : Str
  action : Str
  previousValue : SkillItem
  newValue : SkillItem
deriving DecidableEq

/-- The database state touched by `update_skill_action`. -/
structure DbState where
  profiles : List ProfileRec
  auditLogs : List AuditRec
deriving DecidableEq

/-- Model of `SkillActionRequest` (pydantic model). -/
structure SkillActionRequest where
  profileId : Str
  skillName : Str
  action : Str
  editedName : Option Str := none
  editedCategory : Option Str := none
deriving DecidableEq

/-- The case-insensitive skill lookup loop of `update_skill_action`,
returning the skills before the first hit, the hit, and the rest. -/
def findSkillSplit (skills : List SkillItem) (target : Str) :
    Option (List SkillItem × SkillItem × List SkillItem) :=
  match skills with
  | [] => none
  | sk :: rest =>
      if lowerS sk.name == lowerS target then some ([], sk, rest)
      else (findSkillSplit rest target).map (fun t => (sk :: t.1, t.2.1, t.2.2))

/-- The accept/reject/edit branch of `update_skill_action` applied to the
found skill, with its success message; `none` for an invalid action. -/
def applyAction (sk : SkillItem) (req : SkillActionRequest) : Option (SkillItem × Str) :=
  if req.action == S "accept" then
    some ({ sk with manualStatus := S "accepted" }, acceptedMessage req.skillName)
  else if req.action == S "reject" then
    some ({ sk with manualStatus := S "rejected" }, rejectedMessage req.skillName)
  else if req.action == S "edit" then
    let sk := { sk with manualStatus := S "edited" }
    let sk := match req.editedName with
      | some n => if n.isEmpty then sk else { sk with editedName := some n }
      | none => sk
    let sk := match req.editedCategory with
      | some c => if c.isEmpty then sk else { sk with category := some c }
      | none => sk
    some (sk, editedMessage req.skillName)
  else none

/-- Model of `SkillExtractionService.update_skill_action`: returns the
`(success, message, updated_skill)` triple together with the database
state after the call (unchanged whenever the call fails). -/
def updateSkillAction (db : DbState) (req : SkillActionRequest) :
    (Bool × Str × Option SkillItem) × DbState :=
  match db.profiles.find? (fun p => p.profileId == req.profileId) with
  | none => ((false, S "Profile not found", none), db)
  | some profile =>
      match findSkillSplit profile.skills req.skillName with
      | none => ((false, notFoundMessage req.skillName, none), db)
      | some (pre, sk, post) =>
          match applyAction sk req with
          | none => ((false, invalidActionMessage req.action, none), db)
          | some (newSk, message) =>
              let newSkills := pre ++ newSk :: post
              let newProfiles := db.profiles.map (fun p =>
                if p.profileId == req.profileId then { p with skills := newSkills } else p)
              let audit : AuditRec :=
                { profileId := req.profileId, skillName := req.skillName,
                  action := req.action, previousValue := sk, newValue := newSk }
              ((true, message, some newSk),
                { profiles := newProfiles, auditLogs := db.auditLogs ++ [audit] })

/-- Model of `MatchedSkill` (pydantic model). -/
structure MatchedSkill where
  name : Str
  score : ℚ
  category : Option Str
  confidence : ℚ
deriving DecidableEq

/-- Model of `MissingSkill` (pydantic model). -/
structure MissingSkill where
  name : Str
  estimatedGap : ℚ
  category : Str
  fromJobSection : Option Str
deriving DecidableEq

/-- One value of the `user_embeddings` dict of `JobMatchingService`
(the embedding vectors are opaque values of a parameter type `E`;
the provider is an external collaborator). -/
structure UserEmbedding (E : Type) where
  embedding : E
  skill : SkillItem

/-- One value of the `job_embeddings` dict. -/
structure JobEmbedding (E : Type) where
  embedding : E
  sect : Str

/-- The inner best-match loop of `_match_skills` over the user-embedding
dict for one job skill: starts from threshold 0.7, boosts exact/substring
key matches to at least 0.95, keeps strictly greater similarities
(`sim` models `_cosine_similarity`, an external numpy computation). -/
def bestUserMatch {E : Type} (sim : E → E → ℚ) (userEmb : List (Str × UserEmbedding E))
    (jobKey : Str) (jobEmbedding : E) : Option SkillItem × ℚ :=
  userEmb.foldl (fun (acc : Option SkillItem × ℚ) p =>
    let similarity := sim p.2.embedding jobEmbedding
    let similarity :=
      if p.1 == jobKey || containsS jobKey p.1 || containsS p.1 jobKey
      then max similarity (19/20) else similarity
    if similarity > acc.2 then (some p.2.skill, similarity) else acc)
    (none, 7/10)

/-- The main loop of `_match_skills` before sorting/truncation: one
matched or missing record per job skill possessing an embedding. -/
def matchSkillsCore {E : Type} (tm : List (Str × Mapping)) (sim : E → E → ℚ)
    (userEmb : List (Str × UserEmbedding E)) (jobSkills : List (Str × Str))
    (jobEmb : List (Str × JobEmbedding E)) : List MatchedSkill × List MissingSkill :=
  jobSkills.foldl (fun acc js =>
    let jobKey := lowerS js.1
    match alistFind jobEmb jobKey with
    | none => acc
    | some je =>
        match bestUserMatch sim userEmb jobKey je.embedding with
        | (some best, bestScore) =>
            (acc.1 ++ [{ name := js.1, score := round2 bestScore,
                         category := best.category, confidence := best.confidence }],
             acc.2)
        | (none, _) =>
            (acc.1,
             acc.2 ++ [{ name := js.1, estimatedGap := 4/5,
                         category := getCategory tm js.1,
                         fromJobSection := some js.2 }])) ([], [])

/-- The descending stable sort key `x.score` of `_match_skills`. -/
def scoreRel (a b : MatchedSkill) : Prop := b.score ≤ a.score

instance : DecidableRel scoreRel := fun a b => by unfold scoreRel; infer_instance

/-- Model of `JobMatchingService._match_skills` (sorting the matched list by
descending score and truncating to `top_k`). -/
def matchSkills {E : Type} (tm : List (Str × Mapping)) (sim : E → E → ℚ)
    (userEmb : List (Str × UserEmbedding E)) (jobSkills : List (Str × Str))
    (jobEmb : List (Str × JobEmbedding E)) (topK : Nat) :
    List MatchedSkill × List MissingSkill :=
  let mm := matchSkillsCore tm sim userEmb jobSkills jobEmb
  ((List.insertionSort scoreRel mm.1).take topK, mm.2)

/-- Model of `JobMatchingService._calculate_match_score`. -/
def calculateMatchScore (matchedCount totalJobSkills : Nat) : ℚ :=
  if totalJobSkills = 0 then 0
  else round2 ((matchedCount : ℚ) / (totalJobSkills : ℚ))

/-- The overall score computed by `match_job`: the length of the matched
list returned by `_match_skills` (after top-k truncation) over the number
of extracted job mentions. -/
def jobMatchScore {E : Type} (tm : List (Str × Mapping)) (sim : E → E → ℚ)
    (userEmb : List (Str × UserEmbedding E)) (jobSkills : List (Str × Str))
    (jobEmb : List (Str × JobEmbedding E)) (topK : Nat) : ℚ :=
  calculateMatchScore (matchSkills tm sim userEmb jobSkills jobEmb topK).1.length
    jobSkills.length

/-- Non-overlap of two match spans, as a proposition. -/
def noOverlap (a b : SkillMatch) : Prop := spansOverlap a b = false

instance : IsTotal SkillMatch startRel := ⟨fun a b => Nat.le_total a.start b.start⟩

instance : IsTrans SkillMatch startRel := ⟨fun _ _ _ h1 h2 => Nat.le_trans h1 h2⟩

/-- The three-entry taxonomy of the C1 counterexample. -/
def c1Mappings : List Mapping :=
  [{ skillName := S "java web services" }, { skillName := S "java web" },
   { skillName := S "web services" }]

/-- The service matcher over the C1 counterexample taxonomy. -/
def c1Matcher : SkillMatcher := serviceMatcher c1Mappings

/-- The C1 counterexample text. -/
def c1Text : Str := S "java web services"

/-- The aggregation formula exactly as the specification words it:
`round(clamp(0.2·freq + 0.7·quality + 0.1·diversity, 0, 1), 2)` with
`freq = min(1, 0.4 + 0.2·(count − 1))`,
`quality = 0.65·max(scores) + 0.35·mean(scores)` and
`diversity = min(1, distinct_source_count / 3)`. -/
def specConfidence (evidence : List EvidenceItem) : ℚ :=
  let freqScore := min 1 ((2/5 : ℚ) + ((evidence.length : ℚ) - 1) * (1/5))
  let scores := evidence.map (·.score)
  let quality := (13/20 : ℚ) * listMax scores + (7/20 : ℚ) * (scores.sum / (scores.length : ℚ))
  let diversity := min 1 (((((evidence.map (·.source)).foldl addIfAbsent []).length : ℚ)) / 3)
  round2 (min 1 (max 0
    ((1/5 : ℚ) * freqScore + (7/10 : ℚ) * quality + (1/10 : ℚ) * diversity)))

/-- Two concrete evidence items for the C2 witness. -/
def c2Ev1 : EvidenceItem :=
  { source := S "resume", snippet := S "experience with Python", score := 17/20 }

/-- Second concrete evidence item for the C2 witness. -/
def c2Ev2 : EvidenceItem :=
  { source := S "structured", snippet := S "Python", score := 17/20 }

/-- The two-entry taxonomy of the C3 counterexample: the alias "JS" of
"JavaScript" is inserted into the phrase lookup before the canonical name
of the later entry "JS". -/
def c3Mappings : List Mapping :=
  [{ skillName := S "JavaScript", aliases := [S "JS"] }, { skillName := S "JS" }]

/-- The service matcher over the C3 counterexample taxonomy. -/
def c3Matcher : SkillMatcher := serviceMatcher c3Mappings

/-- A one-entry taxonomy for the C3 witness. -/
def c3PyMatcher : SkillMatcher := serviceMatcher [{ skillName := S "Python" }]

/-- The one-entry taxonomy of the C4 failing input. -/
def c4Matcher : SkillMatcher := serviceMatcher [{ skillName := S "Excel" }]

/-- The C4 failing input: the disambiguating keyword "microsoft" and the
negative-context phrase "excelled at" both occur near the Excel token. -/
def c4Text : Str := S "Microsoft Excel tools. excelled at tasks"

/-- The per-skill invariant of C5: confidence within bounds and at or
above the acceptance threshold. -/
def skillOk (s : SkillItem) : Prop :=
  0 ≤ s.confidence ∧ s.confidence ≤ 1 ∧ minimumConfidence ≤ s.confidence

/-- The invariant over a whole skill list (binder-free form). -/
def allSkillsOk : List SkillItem → Prop
  | [] => True
  | s :: rest => skillOk s ∧ allSkillsOk rest

/-- The one-entry taxonomy of the C6 counterexample.  The record carries
an explicit category, as the real taxonomy records do, so the
`SkillItem(category=...)` construction in `_extract_skills` succeeds and
the source genuinely returns the asserted list at this input. -/
def c6Mappings : List Mapping :=
  [{ skillName := S "Python", category := some (S "technical") }]

/-- The service matcher over the C6 counterexample taxonomy. -/
def c6Matcher : SkillMatcher := serviceMatcher c6Mappings

/-- The taxonomy map over the C6 counterexample taxonomy. -/
def c6TaxMap : List (Str × Mapping) := buildTaxonomyMap c6Mappings

/-- The C6 counterexample text: "python" occurs only inside a URL, with
its domain part more than 24 characters before the occurrence. -/
def c6Text : Str :=
  S "Skills: experience with https://example.com/aaa/bbb/ccc/ddd/eee/fff/python stack"

/-- The C6 witness text: the domain pattern lies inside the window. -/
def c6WText : Str := S "at github.com we use python"

/-- The resume-side evidence of the C7 scenario. -/
def c7EvResume : EvidenceItem :=
  { source := S "resume", snippet := S "built with Python", score := 17/20 }

/-- The external-profile-side evidence of the C7 scenario. -/
def c7EvGithub : EvidenceItem :=
  { source := S "github", snippet := S "GitHub project evidence", score := 4/5 }

/-- The resume-derived "Python" skill of the C7 scenario (confidence 0.6). -/
def c7Resume : SkillItem :=
  { skillId := some (S "resume-python-id"), name := S "Python",
    category := some (S "technical"), confidence := 3/5, evidence := [c7EvResume] }

/-- The external-profile-derived "Python" skill of the C7 scenario
(confidence 0.8, different evidence). -/
def c7Github : SkillItem :=
  { name := S "Python", category := some (S "technical"), confidence := 4/5,
    evidence := [c7EvGithub] }

/-- The profile skills of the C8 counterexample. -/
def c8UserPython : SkillItem :=
  { name := S "Python", category := some (S "technical"), confidence := 4/5 }

/-- Second profile skill of the C8 counterexample. -/
def c8UserDocker : SkillItem :=
  { name := S "Docker", category := some (S "technical"), confidence := 7/10 }

/-- The user-embedding dict of the C8 counterexample (embeddings are
irrelevant here: the exact-name branch forces similarity 0.95). -/
def c8UserEmb : List (Str × UserEmbedding Unit) :=
  [(S "python", ⟨(), c8UserPython⟩), (S "docker", ⟨(), c8UserDocker⟩)]

/-- The two extracted job mentions of the C8 counterexample. -/
def c8JobSkills : List (Str × Str) := [(S "Python", S "other"), (S "Docker", S "other")]

/-- The job-embedding dict of the C8 counterexample. -/
def c8JobEmb : List (Str × JobEmbedding Unit) :=
  [(S "python", ⟨(), S "other"⟩), (S "docker", ⟨(), S "other"⟩)]

/-- The similarity function of the C8 counterexample. -/
def c8Sim : Unit → Unit → ℚ := fun _ _ => 0

/-- The profile skill of the C9 witness. -/
def c9Skill : SkillItem :=
  { name := S "Python", category := some (S "technical"), confidence := 4/5 }

/-- The stored profile of the C9 witness. -/
def c9Profile : ProfileRec :=
  { profileId := S "profile-1", resumeId := S "resume-1", skills := [c9Skill] }

/-- The database of the C9 witness. -/
def c9Db : DbState := { profiles := [c9Profile], auditLogs := [] }

/-- A request naming a skill absent from the profile. -/
def c9Req : SkillActionRequest :=
  { profileId := S "profile-1", skillName := S "Rust", action := S "accept" }

theorem spansOverlap_symm (a b : SkillMatch) : spansOverlap a b = spansOverlap b a := by
  unfold spansOverlap
  by_cases h1 : a.stop ≤ b.start <;> by_cases h2 : a.start ≥ b.stop <;>
    by_cases h3 : b.stop ≤ a.start <;> by_cases h4 : b.start ≥ a.stop <;>
      simp [h1, h2, h3, h4] <;> omega

theorem noOverlap_symm {a b : SkillMatch} (h : noOverlap a b) : noOverlap b a := by
  unfold noOverlap at h ⊢
  rw [← spansOverlap_symm]
  exact h

theorem greedyGo_pairwise (l : List SkillMatch) :
    ∀ acc, acc.Pairwise noOverlap → (greedyGo acc l).Pairwise noOverlap := by
  induction l with
  | nil => intro acc h; exact h
  | cons m rest ih =>
      intro acc h
      show (if acc.any (fun existing => spansOverlap m existing) then greedyGo acc rest
            else greedyGo (acc ++ [m]) rest).Pairwise noOverlap
      by_cases hany : (acc.any (fun existing => spansOverlap m existing)) = true
      · rw [if_pos hany]; exact ih acc h
      · rw [if_neg hany]
        apply ih
        rw [List.pairwise_append]
        refine ⟨h, List.pairwise_singleton _ _, ?_⟩
        intro a ha b hb
        rw [List.mem_singleton] at hb
        subst hb
        have hfalse : spansOverlap b a = false := by
          rw [List.any_eq_true] at hany
          push_neg at hany
          simpa using hany a ha
        exact noOverlap_symm hfalse

theorem overlapFilter_pairwise (l : List SkillMatch) :
    (overlapFilter l).Pairwise noOverlap :=
  greedyGo_pairwise l [] List.Pairwise.nil

/-- C1 (amended): for every matcher and input text the matches returned by
`SkillMatcher.match` are pairwise non-overlapping — hence at most one of
any two overlapping raw candidates is retained — and the returned list is
ordered by start offset.  (The original claim's "exactly one is retained,
namely the longer one" fails: greedy resolution in order of token count
and span length can drop both of two overlapping candidates in favour of a
third; see the counterexample.) -/
theorem C1_match_nonoverlapping_sorted (m : SkillMatcher) (text : Str) :
    (skillMatch m text).Pairwise noOverlap ∧ List.Sorted startRel (skillMatch m text) := by
  constructor
  · unfold skillMatch
    split
    · exact List.Pairwise.nil
    · dsimp only
      split
      · exact List.Pairwise.nil
      · split
        · exact List.Pairwise.nil
        · exact ((List.perm_insertionSort startRel _).pairwise_iff
            (fun hxy => noOverlap_symm hxy)).mpr (overlapFilter_pairwise _)
  · unfold skillMatch
    split
    · exact List.sorted_nil
    · dsimp only
      split
      · exact List.sorted_nil
      · split
        · exact List.sorted_nil
        · exact List.sorted_insertionSort startRel _

/-- C1 counterexample: on the text "java web services" the raw candidates
"java web" (span 0..8) and "web services" (span 5..17) overlap, yet
NEITHER is retained — both are dropped in favour of the three-token match
"java web services" — refuting "for any two raw candidate matches with
overlapping spans exactly one is retained". -/
theorem C1_counterexample :
    ((rawMatchesOf c1Matcher c1Text).map
        (fun x => (x.entry.tokens.length, x.start, x.stop)))
      = [(3, 0, 17), (2, 0, 8), (2, 5, 17)]
    ∧ ((skillMatch c1Matcher c1Text).map (fun x => (x.start, x.stop))) = [(0, 17)]
    ∧ ∃ m1 ∈ rawMatchesOf c1Matcher c1Text, ∃ m2 ∈ rawMatchesOf c1Matcher c1Text,
        spansOverlap m1 m2 = true
        ∧ m1 ∉ skillMatch c1Matcher c1Text
        ∧ m2 ∉ skillMatch c1Matcher c1Text := by decide

theorem foldl_addIfAbsent_ne_nil [BEq α] (xs : List α) :
    ∀ acc : List α, acc ≠ [] → xs.foldl addIfAbsent acc ≠ [] := by
  induction xs with
  | nil => intro acc h; exact h
  | cons x rest ih =>
      intro acc h
      rw [List.foldl_cons]
      apply ih
      unfold addIfAbsent
      split
      · exact h
      · simp

/-- C2: for a non-empty evidence list (whose sources are non-empty
strings, as the data model guarantees — the source field is one of
resume/structured/github), `_calculate_confidence` computes exactly the
specified formula, and the empty evidence list yields confidence 0. -/
theorem C2_confidence_formula :
    calcConfidence [] = 0
    ∧ ∀ evidence : List EvidenceItem, evidence ≠ [] →
        (∀ e ∈ evidence, e.source ≠ []) →
        calcConfidence evidence = specConfidence evidence := by
  refine ⟨by simp [calcConfidence], ?_⟩
  intro evidence hne hsrc
  obtain ⟨e, es, rfl⟩ := List.exists_cons_of_ne_nil hne
  have hfilter : (e :: es).filter (fun x => !x.source.isEmpty) = e :: es := by
    rw [List.filter_eq_self]
    intro a ha
    simpa using hsrc a ha
  have hsetne : (((e :: es).map (·.source)).foldl addIfAbsent []) ≠ [] := by
    simp only [List.map_cons, List.foldl_cons]
    apply foldl_addIfAbsent_ne_nil
    simp [addIfAbsent]
  unfold calcConfidence specConfidence
  rw [hfilter]
  simp only [List.isEmpty_cons, List.map_cons, Bool.false_eq_true, if_false]
  rw [if_neg (by simpa using hsetne)]

theorem C2_confidence_formula_witness :
    calcConfidence [c2Ev1, c2Ev2] = specConfidence [c2Ev1, c2Ev2]
    ∧ calcConfidence [] = 0 :=
  ⟨C2_confidence_formula.2 [c2Ev1, c2Ev2] (by decide) (by decide),
   C2_confidence_formula.1⟩

theorem resolveFindSome (m : SkillMatcher) (canonical : Str) :
    ∀ vs : List (List Str),
      vs.any (fun t => (alistFind m.idx.lookup (joinSpace t)).isSome) = true →
      (∀ t ∈ vs, (alistFind m.idx.lookup (joinSpace t)).all
          (fun e2 => lowerS e2.canonicalName == lowerS canonical) = true) →
      m.excluded.contains (lowerS canonical) = false →
      ∃ e2, vs.findSome? (fun tokens =>
          match alistFind m.idx.lookup (joinSpace tokens) with
          | some entry =>
              if m.excluded.contains (lowerS entry.canonicalName) then none else some entry
          | none => none) = some e2
        ∧ lowerS e2.canonicalName = lowerS canonical := by
  intro vs
  induction vs with
  | nil => intro h4 _ _; simp at h4
  | cons t ts ih =>
      intro h4 h2 h3
      rw [List.findSome?_cons]
      cases hfind : alistFind m.idx.lookup (joinSpace t) with
      | some e2 =>
          have hall := h2 t (List.mem_cons_self t ts)
          rw [hfind] at hall
          have heq : lowerS e2.canonicalName = lowerS canonical := by
            simpa using hall
          refine ⟨e2, ?_, heq⟩
          simp only [hfind, heq, h3, Bool.false_eq_true, if_false]
      | none =>
          have h4' : ts.any (fun t => (alistFind m.idx.lookup (joinSpace t)).isSome) = true := by
            rw [List.any_cons] at h4
            simpa [hfind] using h4
          obtain ⟨e2, hres, heq⟩ :=
            ih h4' (fun t' ht' => h2 t' (List.mem_cons_of_mem _ ht')) h3
          refine ⟨e2, ?_, heq⟩
          simpa only [hfind] using hres

/-- C3 (amended): `resolve_phrase(canonical_name)` returns an entry whose
canonical name equals the input up to case, provided some normalized
variant of the canonical name is present in the phrase lookup, every
variant present there resolves to an entry carrying the same canonical
name up to case (i.e. no earlier taxonomy entry claimed one of its
normalized forms first), and the canonical name is not excluded.  (The
unconditional claim fails: `normalized_lookup.setdefault` keeps the first
entry per normalized phrase, so an alias of an earlier entry shadows a
later entry's canonical name; see the counterexample.) -/
theorem C3_resolve_phrase_roundtrip (m : SkillMatcher) (canonical : Str)
    (h4 : (generateTokenVariants canonical).any
        (fun t => (alistFind m.idx.lookup (joinSpace t)).isSome) = true)
    (h2 : ∀ t ∈ generateTokenVariants canonical,
        (alistFind m.idx.lookup (joinSpace t)).all
          (fun e2 => lowerS e2.canonicalName == lowerS canonical) = true)
    (h3 : m.excluded.contains (lowerS canonical) = false) :
    ∃ e2, resolvePhrase m canonical = some e2
      ∧ lowerS e2.canonicalName = lowerS canonical := by
  have hne : canonical.isEmpty = false := by
    cases hc : canonical.isEmpty with
    | false => rfl
    | true =>
        unfold generateTokenVariants at h4
        rw [hc] at h4
        simp at h4
  unfold resolvePhrase
  rw [hne]
  simp only [Bool.false_eq_true, if_false]
  exact resolveFindSome m canonical (generateTokenVariants canonical) h4 h2 h3

/-- C3 counterexample: the taxonomy contains an entry with canonical name
"JS" (visible in the token index), yet `resolve_phrase("JS")` returns the
entry of "JavaScript", whose canonical name differs from the input even
up to case. -/
theorem C3_counterexample :
    ((alistFind c3Matcher.idx.index (S "js")).map (fun es => es.map (·.canonicalName)))
      = some [S "JavaScript", S "JS"]
    ∧ ((resolvePhrase c3Matcher (S "JS")).map (fun e => e.canonicalName))
      = some (S "JavaScript")
    ∧ lowerS (S "JavaScript") ≠ lowerS (S "JS") := by decide

theorem C3_roundtrip_witness :
    ∃ e2, resolvePhrase c3PyMatcher (S "Python") = some e2
      ∧ lowerS e2.canonicalName = lowerS (S "Python") :=
  C3_resolve_phrase_roundtrip c3PyMatcher (S "Python") (by decide) (by decide) (by decide)

/-- C4 (code bug): "Excel" requires context and its snippet here contains
both a disambiguating keyword and the phrase "excelled at", which the
negative-context pattern is documented to veto — yet `context_is_valid`
accepts the match and `match` returns it.  The compiled pattern
`r"\\bexcel(?:led|s|ing)?\\s+(?:at|in)\\b"` doubles its backslashes inside
a raw string, so it demands literal backslash characters and can never
match English text (`negSearch` is false on the whole lowercased text). -/
theorem C4_negative_pattern_never_fires :
    shouldRequireContext [S "excel"] = true
    ∧ ((skillMatch c4Matcher c4Text).map
        (fun mt => (mt.entry.canonicalName, mt.start, mt.stop)))
      = [(S "Excel", 10, 15)]
    ∧ (skillMatch c4Matcher c4Text).all
        (fun mt => containsS (lowerS mt.snippet) (S "microsoft")
          && containsS (lowerS mt.snippet) (S "excelled at")
          && contextIsValid mt.entry mt.snippet) = true
    ∧ negSearch (lowerS c4Text) = false := by decide

theorem roundHalfEven_nonneg {q : ℚ} (h : 0 ≤ q) : 0 ≤ roundHalfEven q := by
  unfold roundHalfEven
  rw [show q.num / (q.den : ℤ) = ⌊q⌋ from Rat.floor_def.symm]
  have hf : 0 ≤ ⌊q⌋ := Int.floor_nonneg.mpr h
  dsimp only
  split_ifs <;> omega

theorem roundHalfEven_le_of_le {q : ℚ} {n : ℤ} (h : q ≤ n) : roundHalfEven q ≤ n := by
  unfold roundHalfEven
  rw [show q.num / (q.den : ℤ) = ⌊q⌋ from Rat.floor_def.symm]
  have hfl : ⌊q⌋ ≤ n := by
    calc ⌊q⌋ ≤ ⌊(n : ℚ)⌋ := Int.floor_le_floor h
    _ = n := Int.floor_intCast n
  have hfq : (⌊q⌋ : ℚ) ≤ q := Int.floor_le q
  dsimp only
  split_ifs with h1 h2 h3
  · exact hfl
  · have hgt : (⌊q⌋ : ℚ) + 1/2 < q := by linarith [h2]
    have hlt : (⌊q⌋ : ℚ) < n := by linarith
    have : ⌊q⌋ < n := by exact_mod_cast hlt
    omega
  · exact hfl
  · have hr : q - ⌊q⌋ = 1/2 := le_antisymm (not_lt.mp h2) (not_lt.mp h1)
    have hlt : (⌊q⌋ : ℚ) < n := by linarith
    have : ⌊q⌋ < n := by exact_mod_cast hlt
    omega

theorem round2_bounds {q : ℚ} (h0 : 0 ≤ q) (h1 : q ≤ 1) :
    0 ≤ round2 q ∧ round2 q ≤ 1 := by
  unfold round2
  have hlow : 0 ≤ roundHalfEven (q * 100) := roundHalfEven_nonneg (by linarith)
  have hhigh : roundHalfEven (q * 100) ≤ (100 : ℤ) :=
    roundHalfEven_le_of_le (by push_cast; linarith)
  constructor
  · apply div_nonneg _ (by norm_num)
    exact_mod_cast hlow
  · rw [div_le_one (by norm_num)]
    exact_mod_cast hhigh

theorem calcConfidence_bounds (evidence : List EvidenceItem) :
    0 ≤ calcConfidence evidence ∧ calcConfidence evidence ≤ 1 := by
  unfold calcConfidence
  split
  · norm_num
  · dsimp only
    split
    · norm_num
    · exact round2_bounds (le_min (by norm_num) (le_max_left 0 _)) (min_le_left _ _)

theorem allSkillsOk_iff (l : List SkillItem) : allSkillsOk l ↔ ∀ s ∈ l, skillOk s := by
  induction l with
  | nil => simp [allSkillsOk]
  | cons s rest ih => simp [allSkillsOk, ih]

theorem foldl_preserve {α γ : Type} {P : γ → Prop} {step : γ → α → γ}
    (hstep : ∀ d x, P d → P (step d x)) :
    ∀ (l : List α) (d : γ), P d → P (l.foldl step d) := by
  intro l
  induction l with
  | nil => intro d h; exact h
  | cons x rest ih => intro d h; exact ih (step d x) (hstep d x h)

theorem extractItemStep_ok (tm : List (Str × Mapping)) (acc : List SkillItem)
    (kv : Str × SkillData) (h : ∀ s ∈ acc, skillOk s) :
    ∀ s ∈ extractItemStep tm acc kv, skillOk s := by
  intro s hs
  unfold extractItemStep at hs
  dsimp only at hs
  split at hs
  · exact h s hs
  · rcases List.mem_append.mp hs with hmem | hmem
    · exact h s hmem
    · rw [List.mem_singleton] at hmem
      subst hmem
      refine ⟨(calcConfidence_bounds kv.2.evidence).1,
        (calcConfidence_bounds kv.2.evidence).2, ?_⟩
      simpa using le_of_not_lt (by assumption)

theorem extractSkillsList_ok (tm : List (Str × Mapping))
    (sd : List (Str × SkillData)) : allSkillsOk (extractSkillsList tm sd) := by
  rw [allSkillsOk_iff]
  intro s hs
  unfold extractSkillsList at hs
  have hmem : s ∈ sd.foldl (extractItemStep tm) [] :=
    ((List.perm_insertionSort confRel _).mem_iff).mp hs
  revert hmem
  exact foldl_preserve (P := fun acc => ∀ s ∈ acc, skillOk s)
    (fun d x hd => extractItemStep_ok tm d x hd) sd [] (by simp) s

theorem extractSkills_ok (tm : List (Str × Mapping)) (matcher : SkillMatcher)
    (resumeText : Str) (processedSkills : Option SkillsData) :
    allSkillsOk (extractSkills tm matcher resumeText processedSkills) :=
  extractSkillsList_ok tm _

theorem alistInsert_mem {κ β : Type} [BEq κ] {d : List (κ × β)} {k : κ} {v : β}
    {kv : κ × β} (h : kv ∈ alistInsert d k v) : kv ∈ d ∨ kv.2 = v := by
  unfold alistInsert at h
  split at h
  · obtain ⟨p, hp, hrep⟩ := List.mem_map.mp h
    by_cases hpk : (p.1 == k) = true
    · right
      rw [if_pos hpk] at hrep
      rw [← hrep]
    · left
      rw [if_neg hpk] at hrep
      rw [← hrep]
      exact hp
  · rcases List.mem_append.mp h with hmem | hmem
    · left; exact hmem
    · right
      rw [List.mem_singleton] at hmem
      rw [hmem]

theorem foldl_alistInsert_values {κ β : Type} [BEq κ] (key : β → κ) (big : List β) :
    ∀ (l : List β), (∀ x ∈ l, x ∈ big) →
      ∀ d : List (κ × β), (∀ kv ∈ d, kv.2 ∈ big) →
      ∀ kv ∈ l.foldl (fun d x => alistInsert d (key x) x) d, kv.2 ∈ big := by
  intro l
  induction l with
  | nil => intro _ d hd; exact hd
  | cons x rest ih =>
      intro hsub d hd
      rw [List.foldl_cons]
      apply ih (fun y hy => hsub y (List.mem_cons_of_mem _ hy))
      intro kv hkv
      rcases alistInsert_mem hkv with hmem | heq
      · exact hd kv hmem
      · rw [heq]; exact hsub x (List.mem_cons_self _ _)

theorem mergeSkills_nil_ok (skills : List SkillItem) (h : allSkillsOk skills) :
    allSkillsOk (mergeSkills skills []) := by
  rw [allSkillsOk_iff] at h ⊢
  intro s hs
  unfold mergeSkills at hs
  simp only [List.foldl_nil] at hs
  obtain ⟨kv, hkv, rfl⟩ := List.mem_map.mp hs
  have hval := foldl_alistInsert_values (fun s : SkillItem => lowerS s.name) skills
    skills (fun x hx => hx) [] (by simp) kv hkv
  exact h kv.2 hval

theorem ghAdd_evidence_ne_nil {d : List (Str × GithubSkillData)}
    (h : ∀ kv ∈ d, kv.2.evidence ≠ []) (name : Str) (ev : GithubEvidence) :
    ∀ kv ∈ ghAdd d name ev, kv.2.evidence ≠ [] := by
  intro kv hkv
  unfold ghAdd at hkv
  dsimp only at hkv
  split at hkv
  · rcases alistInsert_mem hkv with hmem | heq
    · exact h kv hmem
    · rw [heq]; simp
  · rcases alistInsert_mem hkv with hmem | heq
    · exact h kv hmem
    · rw [heq]; simp

theorem githubSkillsDict_evidence_ne_nil (ex : GithubExtracted) :
    ∀ kv ∈ githubSkillsDict ex, kv.2.evidence ≠ [] := by
  unfold githubSkillsDict
  dsimp only
  refine foldl_preserve (P := fun d : List (Str × GithubSkillData) => ∀ kv ∈ d, kv.2.evidence ≠ []) ?_ _ _
    (foldl_preserve (P := fun d : List (Str × GithubSkillData) => ∀ kv ∈ d, kv.2.evidence ≠ []) ?_ _ _
      (foldl_preserve (P := fun d : List (Str × GithubSkillData) => ∀ kv ∈ d, kv.2.evidence ≠ []) ?_ _ _ ?_))
  · intro d project hd
    split
    · split
      · exact hd
      · exact ghAdd_evidence_ne_nil hd _ _
    · exact hd
  · intro d tech hd
    exact ghAdd_evidence_ne_nil hd _ _
  · intro d lang hd
    exact ghAdd_evidence_ne_nil hd _ _
  · simp

theorem extractGithubSkills_ok_nil (tm : List (Str × Mapping))
    (gd : Option GithubExtracted) (gs : List SkillItem)
    (h : extractGithubSkills tm gd = .ok gs) : gs = [] := by
  unfold extractGithubSkills at h
  cases gd with
  | none => cases h; rfl
  | some ex =>
      dsimp only at h
      cases hd : githubSkillsDict ex with
      | nil =>
          rw [hd] at h
          cases h
          rfl
      | cons kv rest =>
          have hne : kv.2.evidence ≠ [] :=
            githubSkillsDict_evidence_ne_nil ex kv (by rw [hd]; exact List.mem_cons_self _ _)
          have hemp : kv.2.evidence.isEmpty = false := by
            cases hev : kv.2.evidence.isEmpty with
            | false => rfl
            | true => exact absurd (List.isEmpty_iff.mp hev) hne
          rw [hd, List.foldlM_cons] at h
          unfold githubCalcConfidence at h
          rw [hemp] at h
          simp only [Bool.false_eq_true, if_false, Bind.bind, Except.bind] at h
          cases h

/-- C5: every value computed by `_calculate_confidence` lies in [0, 1],
and every `SkillItem` in the final list produced by extraction and
cross-source merging has confidence at least the acceptance threshold
0.55 (and within [0, 1]).  The github branch contributes nothing below
threshold because `_extract_github_skills` raises before producing any
skill whenever it has collected evidence, and the exception is caught. -/
theorem C5_confidence_bounds_and_threshold
    (mappings : List Mapping) (resumeText : Str)
    (processedSkills : Option SkillsData) (githubData : Option (Option GithubExtracted))
    (evidence : List EvidenceItem) :
    (0 ≤ calcConfidence evidence ∧ calcConfidence evidence ≤ 1)
    ∧ allSkillsOk (createProfileSkills mappings resumeText processedSkills githubData) := by
  refine ⟨calcConfidence_bounds evidence, ?_⟩
  unfold createProfileSkills
  dsimp only
  cases githubData with
  | none => exact extractSkills_ok _ _ _ _
  | some gd =>
      dsimp only
      cases hg : extractGithubSkills (buildTaxonomyMap mappings) gd with
      | error e => dsimp only; exact extractSkills_ok _ _ _ _
      | ok gs =>
          dsimp only
          have hnil := extractGithubSkills_ok_nil _ _ _ hg
          subst hnil
          exact mergeSkills_nil_ok _ (extractSkills_ok _ _ _ _)

theorem validateSkillMatch_guard_false (fullText : Str) (start stop : Nat)
    (skillEntry : Option SkillEntry) (matchedText : Option Str)
    (h : domainSearch (lowerS (pySlice fullText (start - 24) (min fullText.length (stop + 24)))) = true
       ∨ emailSearch (lowerS (pySlice fullText (start - 24) (min fullText.length (stop + 24)))) = true) :
    ∀ target : Str,
      validateSkillMatch fullText start stop target skillEntry matchedText = false := by
  intro target
  unfold validateSkillMatch
  dsimp only
  split_ifs with h1 h2 h3 h4 h5 h6 h7 h8 <;> try rfl
  all_goals rcases h with hh | hh
  all_goals first
    | exact absurd hh h3
    | exact absurd hh h4

set_option maxRecDepth 40000 in
unseal Rat.mul Rat.add Rat.sub Rat.inv Nat.gcd in
/-- C6 counterexample: the skill "Python" occurs only inside the URL
(characters 24..74 are exactly the URL, and the matched span 68..74 is
its tail), yet scanning yields the match and extraction accepts it into
the final skill list with confidence 0.71 — the URL/email suppression
only inspects a ±24-character window, which here no longer contains the
domain pattern. -/
theorem C6_counterexample :
    ((skillMatch c6Matcher c6Text).map (fun mt => (mt.matchedText, mt.start, mt.stop)))
      = [(S "python", 68, 74)]
    ∧ pySlice c6Text 24 74 = S "https://example.com/aaa/bbb/ccc/ddd/eee/fff/python"
    ∧ ((extractSkills c6TaxMap c6Matcher c6Text none).map (fun s => (s.name, s.confidence)))
      = [(S "Python", 71/100)] := by decide

/-- C6 (amended): the false-positive suppression holds exactly when the
URL or email pattern falls inside the 24-character context window around
the occurrence: then `_validate_skill_match` rejects the occurrence and
`_add_or_update_skill` leaves the evidence dictionary unchanged, so the
occurrence contributes nothing.  (The unconditional claim fails for
occurrences deep inside long URLs; see the counterexample.) -/
theorem C6_url_email_window_guard (fullText : Str) (start stop : Nat)
    (target : Str) (skillEntry : Option SkillEntry) (matchedText : Option Str)
    (h : domainSearch (lowerS (pySlice fullText (start - 24) (min fullText.length (stop + 24)))) = true
       ∨ emailSearch (lowerS (pySlice fullText (start - 24) (min fullText.length (stop + 24)))) = true) :
    validateSkillMatch fullText start stop target skillEntry matchedText = false
    ∧ ∀ (sd : List (Str × SkillData)) (skillName : Str) (snippetOverride : Option Str),
        addOrUpdateSkill sd skillName fullText start stop (S "resume")
          skillEntry matchedText snippetOverride true = sd := by
  have hvalAny := validateSkillMatch_guard_false fullText start stop skillEntry matchedText h
  refine ⟨hvalAny target, ?_⟩
  intro sd skillName snippetOverride
  unfold addOrUpdateSkill
  dsimp only
  rw [hvalAny]
  simp only [Bool.not_false, Bool.and_self, if_true]
  split_ifs <;> rfl

theorem C6_url_email_window_guard_witness :
    validateSkillMatch c6WText 21 27 (S "python") none (some (S "python")) = false
    ∧ addOrUpdateSkill [] (S "Python") c6WText 21 27 (S "resume")
        none (some (S "python")) none true = [] :=
  ⟨(C6_url_email_window_guard c6WText 21 27 (S "python") none (some (S "python"))
      (Or.inl (by decide))).1,
   (C6_url_email_window_guard c6WText 21 27 (S "python") none (some (S "python"))
      (Or.inl (by decide))).2 [] (S "Python") none⟩

set_option maxRecDepth 4000 in
unseal Rat.mul Rat.add Rat.sub Rat.inv Nat.gcd in
/-- C7: merging the resume-derived list containing "Python" (confidence
0.6, one evidence item) with the external-profile list containing "Python"
(confidence 0.8, a different evidence item) yields a single merged item
whose confidence is 0.8 = max(0.6, 0.8) and whose evidence list keeps both
items in order, without cross-source deduplication. -/
theorem C7_merge_scenario :
    mergeSkills [c7Resume] [c7Github]
      = [{ skillId := some (S "resume-python-id"), name := S "Python",
           category := some (S "technical"), confidence := 4/5,
           evidence := [c7EvResume, c7EvGithub], mappedTaxonomyId := none,
           manualStatus := S "suggested", editedName := none, tags := [] }]
    ∧ max (3/5 : ℚ) (4/5) = 4/5
    ∧ (mergeSkills [c7Resume] [c7Github]).map (fun s => s.evidence.length) = [2] := by
  decide

/-- C8 (amended): the overall job-match score equals
`round(min(matched_count, top_k) / total_mentions, 2)` — the matched count
is capped by the `top_k` truncation applied before the score is computed —
and 0 when there are no mentions. -/
theorem C8_match_score {E : Type} (tm : List (Str × Mapping)) (sim : E → E → ℚ)
    (userEmb : List (Str × UserEmbedding E)) (jobSkills : List (Str × Str))
    (jobEmb : List (Str × JobEmbedding E)) (topK : Nat) :
    jobMatchScore tm sim userEmb jobSkills jobEmb topK
      = if jobSkills.length = 0 then 0
        else round2
          (((min (matchSkillsCore tm sim userEmb jobSkills jobEmb).1.length topK : ℕ) : ℚ)
            / (jobSkills.length : ℚ)) := by
  unfold jobMatchScore matchSkills calculateMatchScore
  dsimp only
  rw [List.length_take, List.length_insertionSort, Nat.min_comm]

set_option maxRecDepth 4000 in
unseal Rat.mul Rat.add Rat.sub Rat.inv Nat.gcd in
/-- C8 counterexample: both job mentions match the profile (2 of 2), but
with `top_k = 1` the matched list is truncated before the score is
computed, so the score is round(1/2) = 0.5 instead of the claimed
round(2/2) = 1. -/
theorem C8_counterexample :
    (matchSkillsCore [] c8Sim c8UserEmb c8JobSkills c8JobEmb).1.length = 2
    ∧ c8JobSkills.length = 2
    ∧ jobMatchScore [] c8Sim c8UserEmb c8JobSkills c8JobEmb 1 = 1/2
    ∧ round2 ((2 : ℚ) / 2) = 1
    ∧ (1/2 : ℚ) ≠ 1 := by decide

theorem findSkillSplit_none (skills : List SkillItem) (target : Str)
    (h : ∀ sk ∈ skills, lowerS sk.name ≠ lowerS target) :
    findSkillSplit skills target = none := by
  induction skills with
  | nil => rfl
  | cons sk rest ih =>
      unfold findSkillSplit
      rw [if_neg (by simpa using h sk (List.mem_cons_self _ _)),
        ih (fun s hs => h s (List.mem_cons_of_mem _ hs))]
      rfl

/-- C9: a lifecycle transition naming a skill absent from the profile
(case-insensitively) returns an explicit failure triple with the not-found
message, no updated skill, and leaves the database — in particular the
profile's skill list — unchanged; no exception is involved (the operation
is a total function in this model, mirroring the early `return` in the
source). -/
theorem C9_unknown_skill_not_found (db : DbState) (req : SkillActionRequest)
    (profile : ProfileRec)
    (hp : db.profiles.find? (fun p => p.profileId == req.profileId) = some profile)
    (hs : ∀ sk ∈ profile.skills, lowerS sk.name ≠ lowerS req.skillName) :
    updateSkillAction db req = ((false, notFoundMessage req.skillName, none), db) := by
  unfold updateSkillAction
  rw [hp]
  dsimp only
  rw [findSkillSplit_none profile.skills req.skillName hs]

unseal Rat.mul Rat.add Rat.sub Rat.inv Nat.gcd in
theorem C9_unknown_skill_not_found_witness :
    updateSkillAction c9Db c9Req = ((false, notFoundMessage (S "Rust"), none), c9Db) :=
  C9_unknown_skill_not_found c9Db c9Req c9Profile (by decide) (by decide)

/-- C10: a match whose matched literal text (stripped) has at most 3
characters and whose neighbouring character — immediately before or after
the span — is alphabetic is rejected by `_validate_skill_match`, and
`_add_or_update_skill` (with validation on) leaves the evidence dictionary
unchanged, so the occurrence contributes no evidence item. -/
theorem C10_short_token_guard (text : Str) (start stop : Nat)
    (skillEntry : Option SkillEntry) (t : Str)
    (ht : t ≠ [])
    (hlen : (pyStrip t).length ≤ 3)
    (hadj : (0 < start ∧ pyIsAlpha (text.getD (start - 1) ' ') = true)
          ∨ (stop < text.length ∧ pyIsAlpha (text.getD stop ' ') = true)) :
    (∀ skillName : Str,
      validateSkillMatch text start stop skillName skillEntry (some t) = false)
    ∧ ∀ (sd : List (Str × SkillData)) (skillName : Str) (source : Str)
        (snippetOverride : Option Str),
        addOrUpdateSkill sd skillName text start stop source skillEntry (some t)
          snippetOverride true = sd := by
  have htE : t.isEmpty = false := by
    cases h : t.isEmpty with
    | false => rfl
    | true => exact absurd (List.isEmpty_iff.mp h) ht
  have hvalAny : ∀ skillName : Str,
      validateSkillMatch text start stop skillName skillEntry (some t) = false := by
    intro skillName
    unfold validateSkillMatch
    dsimp only
    simp only [pyOrStr, htE, Bool.false_eq_true, if_false]
    split_ifs with h1 h2 h3 h4 h5 h6 h7 <;> try rfl
    · rcases hadj with ⟨ha, hb⟩ | ⟨ha, hb⟩
      · exact absurd (by rw [Bool.and_eq_true]; exact ⟨decide_eq_true ha, hb⟩) h6
      · exact absurd (by rw [Bool.and_eq_true]; exact ⟨decide_eq_true ha, hb⟩) h7
  refine ⟨hvalAny, ?_⟩
  intro sd skillName source snippetOverride
  unfold addOrUpdateSkill
  dsimp only
  rw [hvalAny]
  simp only [Bool.not_false, Bool.and_self, if_true]
  split_ifs <;> rfl

unseal Rat.mul Rat.add Rat.sub Rat.inv Nat.gcd in
theorem C10_short_token_guard_witness :
    validateSkillMatch (S "xml") 1 3 (S "ml") none (some (S "ml")) = false
    ∧ addOrUpdateSkill [] (S "ml") (S "xml") 1 3 (S "resume") none (some (S "ml"))
        none true = [] :=
  ⟨(C10_short_token_guard (S "xml") 1 3 none (S "ml") (by decide) (by decide)
      (Or.inl (by decide))).1 (S "ml"),
   (C10_short_token_guard (S "xml") 1 3 none (S "ml") (by decide) (by decide)
      (Or.inl (by decide))).2 [] (S "ml") (S "resume") none⟩
